import Mathlib

/-!
Verification development for the `contract-api` typed HTTP request-dispatch
layer.  The definitions below are a shallow embedding of the TypeScript
sources (`src/https.ts` URL helpers, `src/client.ts` call pipeline,
`src/errors.ts` error model, `src/types.ts` data model):

* JavaScript runtime values that flow through the pipeline are modelled by
  the inductive `Value` (JSON-like data; `undefined` is modelled by
  `Option Value` at the positions where the source distinguishes it from
  `null`).  Numbers are modelled as integers - none of the verified
  behaviour depends on non-integral numerics.
* Runtime schemas (`RuntimeSchema<T>` with a throwing `parse`) become
  functions `Option Value → Except Value Value`; a thrown payload becomes
  the `.error` component, matching `tryToParse` in the source.
* `async`/`await` is erased: every awaited supplier becomes a plain
  function, since a single call's pipeline is sequential.
* The injectable externals (transport `fetcher`, JSON codec - the source
  defaults to the platform `JSON` object and `globalThis.fetch`, which are
  outside the repository) appear as resolved function-valued fields of
  `ClientOptions`.
-/

namespace ContractApi

/-- JSON-like JavaScript runtime value. -/
inductive Value where
  | null : Value
  | bool (b : Bool) : Value
  | num (n : Int) : Value
  | str (s : String) : Value
  | arr (xs : List Value) : Value
  | obj (fs : List (String × Value)) : Value

mutual

/-- JavaScript `String(v)` coercion for the values that can reach it in
the pipeline (scalar stringification; arrays join with commas as
`Array.prototype.toString`; plain objects give "[object Object]"). -/
def jsToString : Value → String
  | .null => "null"
  | .bool b => if b then "true" else "false"
  | .num n => toString n
  | .str s => s
  | .arr xs => jsArrJoin xs
  | .obj _ => "[object Object]"
termination_by structural v => v

/-- Elements of an array joined with "," (JS array join); a null element
stringifies to "". -/
def jsArrJoin : List Value → String
  | [] => ""
  | [.null] => ""
  | [x] => jsToString x
  | .null :: xs => "," ++ jsArrJoin xs
  | x :: xs => jsToString x ++ "," ++ jsArrJoin xs
termination_by structural l => l

end

/-- JavaScript truthiness of a defined value. -/
def truthy : Value → Bool
  | .null => false
  | .bool b => b
  | .num n => n != 0
  | .str s => s != ""
  | .arr _ => true
  | .obj _ => true

/-- Truthiness of a possibly-`undefined` value. -/
def truthyOpt : Option Value → Bool
  | none => false
  | some v => truthy v

/-- Property lookup `v[key]` for object values; non-objects give
`undefined` for the (string) keys the pipeline uses. -/
def lookupField : Value → String → Option Value
  | .obj fs, k => fs.lookup k
  | _, _ => none

/-- Fields of an object value; spreading / `Object.entries` of the
non-object values that can reach these positions yields nothing. -/
def objEntries : Value → List (String × Value)
  | .obj fs => fs
  | _ => []

/- ## String utilities (JS string primitive semantics, over `String.data`) -/

/-- `startsWithL h n` : `n` is a prefix of `h` (JS `String.startsWith`). -/
def startsWithL : List Char → List Char → Bool
  | _, [] => true
  | [], _ :: _ => false
  | c :: cs, d :: ds => c == d && startsWithL cs ds

/-- `containsL h n` : `n` occurs inside `h` (JS `String.includes`). -/
def containsL : List Char → List Char → Bool
  | [], n => n.isEmpty
  | h :: t, n => startsWithL (h :: t) n || containsL t n

def strStartsWith (s t : String) : Bool := startsWithL s.data t.data

def strContains (s t : String) : Bool := containsL s.data t.data

/-- JS `String.endsWith`, via reversed character lists. -/
def strEndsWith (s t : String) : Bool := startsWithL s.data.reverse t.data.reverse

/-- JS `s.slice(0, -1)`. -/
def strDropLast (s : String) : String := ⟨s.data.dropLast⟩

/-- JS whitespace for `String.prototype.trim` (the code points that occur
in practice; the full JS set additionally holds exotic Unicode spaces). -/
def isJsSpace (c : Char) : Bool :=
  c == ' ' || c == '\t' || c == '\n' || c == '\r' ||
  c == Char.ofNat 11 || c == Char.ofNat 12

/-- JS `String.prototype.trim`. -/
def jsTrim (s : String) : String :=
  ⟨((s.data.dropWhile isJsSpace).reverse.dropWhile isJsSpace).reverse⟩

/-- JS `String.prototype.toUpperCase` (ASCII range, which covers HTTP
method names). -/
def jsUpper (s : String) : String := ⟨s.data.map Char.toUpper⟩

/-- Upper-case hexadecimal digit. -/
def hexDigit (n : Nat) : Char :=
  if n < 10 then Char.ofNat (48 + n) else Char.ofNat (55 + n)

/-- UTF-8 encoding of one code point, as byte values. -/
def utf8Bytes (c : Char) : List Nat :=
  let n := c.toNat
  if n < 0x80 then [n]
  else if n < 0x800 then
    [0xC0 + n / 64, 0x80 + n % 64]
  else if n < 0x10000 then
    [0xE0 + n / 4096, 0x80 + (n / 64) % 64, 0x80 + n % 64]
  else
    [0xF0 + n / 262144, 0x80 + (n / 4096) % 64, 0x80 + (n / 64) % 64,
      0x80 + n % 64]

/-- `%XX` escape of one byte. -/
def percentByte (b : Nat) : List Char := ['%', hexDigit (b / 16), hexDigit (b % 16)]

/-- Characters `encodeURIComponent` leaves unescaped. -/
def isUriUnreserved (c : Char) : Bool :=
  c.isAlpha || c.isDigit ||
  c == '-' || c == '_' || c == '.' || c == '!' || c == '~' || c == '*' ||
  c == Char.ofNat 39 || c == '(' || c == ')'

/-- JS `encodeURIComponent`. -/
def encodeURIComponent (s : String) : String :=
  ⟨(s.data.map (fun c =>
      if isUriUnreserved c then [c]
      else ((utf8Bytes c).map percentByte).flatten)).flatten⟩

/-- Characters the `application/x-www-form-urlencoded` serializer leaves
unescaped (`URLSearchParams.toString`). -/
def isFormSafe (c : Char) : Bool :=
  c.isAlpha || c.isDigit || c == '*' || c == '-' || c == '.' || c == '_'

/-- One character under the `application/x-www-form-urlencoded`
serializer: safe characters kept, space becomes `+`, the rest
percent-escaped bytewise. -/
def formEncodeChar (c : Char) : List Char :=
  if isFormSafe c then [c]
  else if c == ' ' then ['+']
  else ((utf8Bytes c).map percentByte).flatten

/-- `application/x-www-form-urlencoded` escape of a string. -/
def formEncode (s : String) : String := ⟨(s.data.map formEncodeChar).flatten⟩

/- ## Error model (`src/errors.ts`) -/

inductive VKind where
  | request : VKind
  | response : VKind
deriving DecidableEq

/-- Payload of `ValidationError`. -/
structure VErr where
  message : String
  key : String
  url : String
  kind : VKind
  issues : Value

/-- Payload of `ApiError`.  A field the constructor leaves unset
(`undefined`) is `none`. -/
structure AErr where
  message : String
  status : Nat
  key : String
  url : String
  rawText : Option String
  rawJson : Option Value
  parsedError : Option Value

/-- Everything the call pipeline can throw. -/
inductive CallError where
  | unknownEndpoint (key : String)
  | invalidKey (key : String)
  | missingPathParam (name : String)
  | validation (e : VErr)
  | api (e : AErr)

/- ## URL builder (`src/https.ts`) -/

/-- `joinURL(base, path)` from `src/https.ts`: empty base returns the path
unchanged; otherwise one trailing slash is removed from the base and a
leading slash added to the path when missing. -/
def joinURL (base path : String) : String :=
  if base = "" then path
  else
    (if strEndsWith base "/" then strDropLast base else base) ++
    (if strStartsWith path "/" then path else "/" ++ path)

/-- Is this a word character of the sigil pattern `[A-Za-z0-9_]`? -/
def isWordChar (c : Char) : Bool := c.isAlpha || c.isDigit || c == '_'

/-- Scanner behind `buildPath`: replaces each `:name` (maximal nonempty
run of word characters after `:`, exactly the regex
`:([A-Za-z0-9_]+)` scanned left to right) by
`encodeURIComponent(String(params[name]))`, failing on an absent or null
parameter exactly where `buildPath` throws. -/
def buildPathAux (params : Value) : List Char → Except CallError (List Char)
  | [] => .ok []
  | ':' :: rest =>
    let name := rest.takeWhile isWordChar
    if name.isEmpty then
      (buildPathAux params rest).map (':' :: ·)
    else
      match lookupField params ⟨name⟩ with
      | none => .error (.missingPathParam ⟨name⟩)
      | some .null => .error (.missingPathParam ⟨name⟩)
      | some v =>
        (buildPathAux params (rest.dropWhile isWordChar)).map
          ((encodeURIComponent (jsToString v)).data ++ ·)
  | c :: rest => (buildPathAux params rest).map (c :: ·)
termination_by l => l.length
decreasing_by
  · simp
  · simp only [List.length_cons]
    exact Nat.lt_succ_of_le (List.Sublist.length_le (List.dropWhile_sublist _))
  · simp

/-- `buildPath(template, params)` from `src/https.ts`. -/
def buildPath (template : String) (params : Value) : Except CallError String :=
  (buildPathAux params template.data).map (fun cs => ⟨cs⟩)

/-- The parameter names the template's sigils reference, in scan order
(same scanner as `buildPathAux`). -/
def refKeysAux : List Char → List String
  | [] => []
  | ':' :: rest =>
    let name := rest.takeWhile isWordChar
    if name.isEmpty then refKeysAux rest
    else (⟨name⟩ : String) :: refKeysAux (rest.dropWhile isWordChar)
  | _ :: rest => refKeysAux rest
termination_by l => l.length
decreasing_by
  · simp
  · simp only [List.length_cons]
    exact Nat.lt_succ_of_le (List.Sublist.length_le (List.dropWhile_sublist _))
  · simp

def referencedKeys (template : String) : List String := refKeysAux template.data

/-- A parameter entry `URLSearchParams` can serialize. -/
abbrev SPList := List (String × String)

/-- `URLSearchParams.append`. -/
def spAppend (sp : SPList) (k v : String) : SPList := sp ++ [(k, v)]

/-- Drop every entry with the given name. -/
def spRemove (sp : SPList) (k : String) : SPList :=
  sp.filter (fun kv => kv.1 != k)

/-- `URLSearchParams.set`: replace the value of the first entry with this
name and drop the rest, or append when the name is absent. -/
def spSet : SPList → String → String → SPList
  | [], k, v => [(k, v)]
  | (k', v') :: rest, k, v =>
    if k' = k then (k, v) :: spRemove rest k
    else (k', v') :: spSet rest k v

/-- `URLSearchParams.toString`. -/
def spSerialize (sp : SPList) : String :=
  String.intercalate "&" (sp.map (fun kv => formEncode kv.1 ++ "=" ++ formEncode kv.2))

/-- The entry list `buildQueryString` accumulates: `null` (and absent /
`undefined`) entries skipped, arrays appended element-wise, scalars set. -/
def buildQueryPairs (sp : SPList) : List (String × Value) → SPList
  | [] => sp
  | (k, v) :: rest =>
    match v with
    | .null => buildQueryPairs sp rest
    | .arr items =>
      buildQueryPairs (items.foldl (fun s it => spAppend s k (jsToString it)) sp) rest
    | v => buildQueryPairs (spSet sp k (jsToString v)) rest

/-- `buildQueryString(query)` from `src/https.ts`. -/
def buildQueryString (query : List (String × Value)) : String :=
  let s := spSerialize (buildQueryPairs [] query)
  if s = "" then "" else "?" ++ s

/-- Spec-side description of the encoded query entries, written from the
spec's words for the refinement comparison: array-valued entries expand
to repeated keys (one per element), null (and undefined) entries are
omitted entirely, scalar values are stringified. -/
def specQueryPairs : List (String × Value) → List (String × String)
  | [] => []
  | (_, .null) :: rest => specQueryPairs rest
  | (k, .arr items) :: rest =>
    items.map (fun it => (k, jsToString it)) ++ specQueryPairs rest
  | (k, v) :: rest => (k, jsToString v) :: specQueryPairs rest

/- ## Data model (`src/types.ts`) -/

/-- `RuntimeSchema<T>`: `parse` either returns a value or throws an
opaque issues payload.  The input may be `undefined` (`none`). -/
abbrev RuntimeSchema := Option Value → Except Value Value

inductive AuthMode where
  | public : AuthMode
  | required : AuthMode

inductive ContentType where
  | json : ContentType
  | text : ContentType
  | none : ContentType

/-- `EndpointDef`: optional validators, mandatory response validator. -/
structure EndpointDef where
  auth : AuthMode
  params : Option RuntimeSchema
  query : Option RuntimeSchema
  body : Option RuntimeSchema
  headers : Option RuntimeSchema
  response : RuntimeSchema
  error : Option RuntimeSchema
  contentType : Option ContentType

/-- `string | (() => string | Promise<string>)` of an override token. -/
inductive TokenSource where
  | val (s : String) : TokenSource
  | fn (f : Unit → String) : TokenSource

/-- Client-level `AuthStrategy`. -/
inductive AuthStrategy where
  | bearer (token : Unit → String) : AuthStrategy
  | cookie : AuthStrategy
  | headers (getHeaders : Unit → Option (List (String × String))) : AuthStrategy

/-- Per-call `AuthOverride` (the non-sentinel shapes). -/
inductive AuthOverride where
  | bearer (token : TokenSource) : AuthOverride
  | cookie : AuthOverride
  | headers (getHeaders : Unit → Option (List (String × String))) : AuthOverride

/-- The per-call `auth` argument: the literal `true` sentinel
("use default") or an override object. -/
inductive AuthArg where
  | useDefault : AuthArg
  | override (o : AuthOverride) : AuthArg

/-- `RequestInit` as the pipeline constructs it.  The body is the encoded
string (or absent); the cancellation signal is opaque, modelled by a
token. -/
structure RequestInit where
  method : String
  headers : List (String × Value)
  body : Option String
  signal : Option Nat

/-- A raw-transport-options object spread last into the descriptor: a key
present here replaces what the pipeline constructed. -/
structure InitOverride where
  method : Option String
  headers : Option (List (String × Value))
  body : Option (Option String)
  signal : Option (Option Nat)

/-- Transport response: numeric status, status text, case-insensitive
lookup of the content-type header (already performed), and the full body
text.  `ok` is derivable: 2xx = success (transport interface contract). -/
structure Response where
  status : Nat
  statusText : String
  contentTypeHeader : Option String
  text : String

structure BeforeCtx where
  key : String
  url : String
  init : RequestInit

abbrev BeforeHook := BeforeCtx → Option RequestInit

structure AfterCtx where
  key : String
  url : String
  init : RequestInit
  response : Response

abbrev AfterHook := AfterCtx → Option Response

structure Hooks where
  beforeRequest : Option (List BeforeHook)
  afterResponse : Option (List AfterHook)

/-- JSON codec, in resolved form: the source defaults the two functions
to the platform `JSON.stringify` / `JSON.parse`, which live outside this
repository; `decodeJson` returns `none` where the source function
throws. -/
structure Codecs where
  encodeJson : Value → String
  decodeJson : String → Option Value

/-- `BaseUrl`: literal or resolver function (async erased). -/
inductive BaseUrl where
  | lit (s : String) : BaseUrl
  | fn (f : Unit → String) : BaseUrl

/-- `ClientOptions`, with the transport already resolved
(`options.fetcher ?? globalThis.fetch`). -/
structure ClientOptions where
  baseUrl : Option BaseUrl
  fetcher : String → RequestInit → Response
  auth : Option AuthStrategy
  hooks : Option Hooks
  codecs : Codecs

/-- Per-call arguments; an absent field is `none` (`undefined`). -/
structure CallArgs where
  params : Option Value
  query : Option Value
  body : Option Value
  headers : Option Value
  auth : Option AuthArg
  signal : Option Nat
  init : Option InitOverride

abbrev Contract := List (String × EndpointDef)

/- ## Call pipeline (`src/client.ts`) -/

structure MethodPath where
  method : String
  path : String

/-- `parseKey`: split at the first space; trim and uppercase the method,
trim the path; no space is a malformed key. -/
def parseKey (key : String) : Except CallError MethodPath :=
  let pre := key.data.takeWhile (fun c => c != ' ')
  match key.data.dropWhile (fun c => c != ' ') with
  | [] => .error (.invalidKey key)
  | _ :: tail => .ok ⟨jsUpper (jsTrim ⟨pre⟩), jsTrim ⟨tail⟩⟩

/-- `resolveBaseUrl`: absent (or empty, which coincides) gives `""`,
literal gives itself, resolver function is invoked. -/
def resolveBaseUrl : Option BaseUrl → String
  | Option.none => ""
  | some (.lit s) => s
  | some (.fn f) => f ()

/-- `resolveAuthHeaders` (client-level strategy). -/
def resolveAuthHeaders : Option AuthStrategy → List (String × String)
  | Option.none => []
  | some .cookie => []
  | some (.bearer token) =>
    let t := token ()
    if t = "" then [] else [("Authorization", "Bearer " ++ t)]
  | some (.headers g) => (g ()).getD []

/-- `resolveOverrideAuthHeaders` (per-call override). -/
def resolveOverrideAuthHeaders : AuthOverride → List (String × String)
  | .cookie => []
  | .bearer tk =>
    let t := match tk with
      | .val s => s
      | .fn f => f ()
    if t = "" then [] else [("Authorization", "Bearer " ++ t)]
  | .headers g => (g ()).getD []

/-- `getEndpoint`: contract lookup; an absent key is the caller's error. -/
def getEndpoint (contract : Contract) (key : String) : Option EndpointDef :=
  contract.lookup key

/-- One input-validation step of the pipeline: a declared validator is run
via `tryToParse` on the (possibly absent) argument; no validator leaves
the field `undefined`. -/
def validateField (sch : Option RuntimeSchema) (input : Option Value) :
    Except Value (Option Value) :=
  match sch with
  | Option.none => .ok none
  | some s => (s input).map some

/-- `paramsObj ? buildPath(pathTemplate, paramsObj) : pathTemplate`. -/
def buildPathStep (paramsObj : Option Value) (template : String) :
    Except CallError String :=
  if truthyOpt paramsObj then buildPath template (paramsObj.getD .null)
  else .ok template

/-- `queryObj ? buildQueryString(queryObj) : ""`. -/
def queryStep (queryObj : Option Value) : String :=
  if truthyOpt queryObj then buildQueryString (objEntries (queryObj.getD .null))
  else ""

/-- `{...(headersObj ?? {})}`: object fields are copied; the degenerate
non-object spreads contribute nothing. -/
def headerProps : Option Value → List (String × Value)
  | some (.obj fs) => fs
  | _ => []

/-- JS property assignment `t[k] = v` on a plain object: replace in place
when present, append otherwise. -/
def setProp : List (String × Value) → String → Value → List (String × Value)
  | [], k, v => [(k, v)]
  | (k', v') :: rest, k, v =>
    if k' = k then (k, v) :: rest else (k', v') :: setProp rest k v

/-- `Object.assign(target, src)` with string-valued source entries. -/
def objAssign (target : List (String × Value)) (src : List (String × String)) :
    List (String × Value) :=
  src.foldl (fun t kv => setProp t kv.1 (Value.str kv.2)) target

/-- `h[k] = h[k] ?? d`: keep a present non-null value, else install the
default. -/
def setDefaultHeader (h : List (String × Value)) (k : String) (d : Value) :
    List (String × Value) :=
  match h.lookup k with
  | some .null => setProp h k d
  | some v => setProp h k v
  | Option.none => setProp h k d

/-- Auth headers merged for this call: only `required` endpoints get any;
a non-sentinel override wins entirely, otherwise the client default
strategy is used. -/
def callAuthHeaders (m : AuthMode) (af : Option AuthArg)
    (s : Option AuthStrategy) : List (String × String) :=
  match m with
  | .public => []
  | .required =>
    match af with
    | some (.override ov) => resolveOverrideAuthHeaders ov
    | _ => resolveAuthHeaders s

/-- The spread `{...init0, ...(args.init)}`: a key present in the
override replaces the constructed value. -/
def applyInitOverride (i : RequestInit) (ov : InitOverride) : RequestInit :=
  ⟨ov.method.getD i.method, ov.headers.getD i.headers,
    ov.body.getD i.body, ov.signal.getD i.signal⟩

/-- `options.hooks?.beforeRequest ?? []`. -/
def beforeHooksOf (o : ClientOptions) : List BeforeHook :=
  match o.hooks with
  | Option.none => []
  | some hk => hk.beforeRequest.getD []

/-- `options.hooks?.afterResponse ?? []`. -/
def afterHooksOf (o : ClientOptions) : List AfterHook :=
  match o.hooks with
  | Option.none => []
  | some hk => hk.afterResponse.getD []

/-- Everything `call` has computed when it reaches the transport
dispatch. -/
structure Prepared where
  defn : EndpointDef
  url : String
  init : RequestInit

/-- The call pipeline up to (but excluding) the transport dispatch:
lookup, key parsing, the four input validations in source order, URL
construction, auth-header resolution, body encoding, the raw-init
spread, and the pre-request hook fold. -/
def prepareRequest (contract : Contract) (o : ClientOptions) (key : String)
    (a : CallArgs) : Except CallError Prepared :=
  match getEndpoint contract key with
  | Option.none => .error (.unknownEndpoint key)
  | some defn =>
  match parseKey key with
  | .error e => .error e
  | .ok mp =>
  let baseUrl := resolveBaseUrl o.baseUrl
  match validateField defn.params a.params with
  | .error issues =>
    .error (.validation ⟨"Invalid path params", key, baseUrl ++ mp.path, .request, issues⟩)
  | .ok paramsObj =>
  match validateField defn.query a.query with
  | .error issues =>
    .error (.validation ⟨"Invalid query", key, baseUrl ++ mp.path, .request, issues⟩)
  | .ok queryObj =>
  match validateField defn.body a.body with
  | .error issues =>
    .error (.validation ⟨"Invalid body", key, baseUrl ++ mp.path, .request, issues⟩)
  | .ok bodyObj =>
  match validateField defn.headers a.headers with
  | .error issues =>
    .error (.validation ⟨"Invalid headers", key, baseUrl ++ mp.path, .request, issues⟩)
  | .ok headersObj =>
  match buildPathStep paramsObj mp.path with
  | .error e => .error e
  | .ok builtPath =>
  let url := joinURL baseUrl (builtPath ++ queryStep queryObj)
  let h1 := objAssign (headerProps headersObj) (callAuthHeaders defn.auth a.auth o.auth)
  let ct := defn.contentType.getD
    (if defn.body.isSome then ContentType.json else ContentType.none)
  let hb : List (String × Value) × Option String :=
    match ct, bodyObj with
    | .json, some bv =>
      (setDefaultHeader h1 "Content-Type" (.str "application/json"),
        some (o.codecs.encodeJson bv))
    | .text, some bv =>
      (setDefaultHeader h1 "Content-Type" (.str "text/plain"),
        some (jsToString bv))
    | _, _ => (h1, Option.none)
  let init0 : RequestInit := ⟨mp.method, hb.1, hb.2, a.signal⟩
  let init1 := match a.init with
    | some ov => applyInitOverride init0 ov
    | Option.none => init0
  .ok ⟨defn, url, (beforeHooksOf o).foldl (fun i f => (f ⟨key, url, i⟩).getD i) init1⟩

/-- Content classification of the response body: attempt JSON decoding
when the content-type header mentions `application/json` or the trimmed
nonempty text starts with a brace or bracket; a decode failure is
swallowed (`safeJSON`). -/
def likelyJson (r : Response) : Bool :=
  r.text != "" &&
    ((match r.contentTypeHeader with
      | some ctv => strContains ctv "application/json"
      | Option.none => false) ||
     strStartsWith (jsTrim r.text) "\x7b" ||
     strStartsWith (jsTrim r.text) "[")

/-- `rawJson`: the decoded JSON body, when the body looks like JSON and
the decoder accepts it. -/
def decodeMaybe (o : ClientOptions) (r : Response) : Option Value :=
  if likelyJson r then o.codecs.decodeJson r.text else none

/-- `rawJson !== undefined ? rawJson : text`: the value fed to the
response schema on a success status. -/
def decodedInput (o : ClientOptions) (r : Response) : Value :=
  match decodeMaybe o r with
  | some j => j
  | Option.none => .str r.text

/-- The `parsedError` computation: a declared error schema applied to a
present decoded body, with a parse failure leaving it unset. -/
def errorParse (defn : EndpointDef) (rawJson : Option Value) : Option Value :=
  match defn.error, rawJson with
  | some sch, some j =>
    match sch (some j) with
    | .ok v => some v
    | .error _ => none
  | _, _ => none

/-- Response classification after dispatch: non-2xx throws `ApiError`
(status, key, url, body text when nonempty, decoded body when present,
`parsedError` when the error schema matches); 2xx validates the decoded
input against the response schema. -/
def classifyResponse (o : ClientOptions) (defn : EndpointDef) (key url : String)
    (r : Response) : Except CallError Value :=
  let rawJson := decodeMaybe o r
  if 200 ≤ r.status ∧ r.status ≤ 299 then
    match defn.response (some (decodedInput o r)) with
    | .ok v => .ok v
    | .error issues =>
      .error (.validation ⟨"Response validation failed", key, url, .response, issues⟩)
  else
    .error (.api ⟨"API request failed: " ++ toString r.status ++ " " ++ r.statusText,
      r.status, key, url,
      (if r.text = "" then none else some r.text), rawJson, errorParse defn rawJson⟩)

/-- The response as the classification sees it: the transport's answer
threaded through the post-response hook fold. -/
def dispatchedResponse (o : ClientOptions) (key : String) (p : Prepared) : Response :=
  (afterHooksOf o).foldl (fun r f => (f ⟨key, p.url, p.init, r⟩).getD r)
    (o.fetcher p.url p.init)

/-- The full `call`.  The second component counts transport invocations:
the source dispatches exactly once, after every request-side step has
succeeded, and not at all when one of them throws. -/
def call (contract : Contract) (o : ClientOptions) (key : String)
    (a : CallArgs) : Except CallError Value × Nat :=
  match prepareRequest contract o key a with
  | .error e => (.error e, 0)
  | .ok p => (classifyResponse o p.defn key p.url (dispatchedResponse o key p), 1)

/-- The four validated request fields in the fixed source order. -/
def fieldSchema (d : EndpointDef) : Fin 4 → Option RuntimeSchema
  | 0 => d.params
  | 1 => d.query
  | 2 => d.body
  | 3 => d.headers

/-- The call argument each field validator receives. -/
def fieldArg (a : CallArgs) : Fin 4 → Option Value
  | 0 => a.params
  | 1 => a.query
  | 2 => a.body
  | 3 => a.headers

/-- The message identifying the failing field. -/
def fieldMessage : Fin 4 → String
  | 0 => "Invalid path params"
  | 1 => "Invalid query"
  | 2 => "Invalid body"
  | 3 => "Invalid headers"

/-- Is this `Except` a success? -/
def exceptIsOk {ε α : Type} : Except ε α → Bool
  | .ok _ => true
  | .error _ => false

/-- A parameter value `buildPath` accepts for a referenced key: present
and neither null nor undefined. -/
def goodParam (params : Value) (nm : String) : Bool :=
  match lookupField params nm with
  | none => false
  | some .null => false
  | some _ => true

/- ## Concrete fixtures used by witnesses and counterexamples -/

/-- A validator that always throws the payload "bad". -/
def fxReject : RuntimeSchema := fun _ => .error (.str "bad")

/-- A validator that accepts anything, coercing `undefined` to `null`. -/
def fxAccept : RuntimeSchema := fun v => .ok (v.getD .null)

/-- A validator accepting only numbers (a typical response schema). -/
def fxNum : RuntimeSchema := fun v =>
  match v with
  | some (.num n) => .ok (.num n)
  | _ => .error (.str "not-num")

/-- A concrete codec: the decoder accepts exactly the body "7". -/
def fxCodecs : Codecs :=
  ⟨fun _ => "body", fun t => if t = "7" then some (.num 7) else none⟩

/-- Transport producing a 200 JSON response with body "7". -/
def fxFetch200 : String → RequestInit → Response :=
  fun _ _ => ⟨200, "OK", some "application/json", "7"⟩

/-- Transport producing a 500 response with an empty body. -/
def fxFetch500 : String → RequestInit → Response :=
  fun _ _ => ⟨500, "", none, ""⟩

/-- Endpoint whose query validator always fails. -/
def fx1Def : EndpointDef :=
  ⟨.public, some fxAccept, some fxReject, none, none, fxAccept, none, none⟩

def fx1Opts : ClientOptions :=
  ⟨some (.lit "http://b"), fxFetch200, none, none, fxCodecs⟩

/-- A call supplying no arguments at all. -/
def fxNoArgs : CallArgs := ⟨none, none, none, none, none, none, none⟩

/-- Endpoint with only the (number-accepting) response validator. -/
def fx2Def : EndpointDef := ⟨.public, none, none, none, none, fxNum, none, none⟩

/-- Endpoint whose response validator always fails. -/
def fx2BadDef : EndpointDef := ⟨.public, none, none, none, none, fxReject, none, none⟩

def fx3Opts : ClientOptions := ⟨some (.lit "http://b"), fxFetch500, none, none, fxCodecs⟩

/-- Transport producing a 404 with a non-JSON body. -/
def fxFetch404 : String → RequestInit → Response :=
  fun _ _ => ⟨404, "Not Found", none, "oops"⟩

def fx4Opts : ClientOptions := ⟨some (.lit "http://b"), fxFetch404, none, none, fxCodecs⟩

/-- Transport producing a 500 with a JSON body the error schema accepts. -/
def fxFetch500json : String → RequestInit → Response :=
  fun _ _ => ⟨500, "Server Error", some "application/json", "7"⟩

/-- Endpoint declaring the number-accepting error schema. -/
def fx4jDef : EndpointDef := ⟨.public, none, none, none, none, fxAccept, some fxNum, none⟩

def fx4jOpts : ClientOptions := ⟨some (.lit "http://b"), fxFetch500json, none, none, fxCodecs⟩

/-- A `required`-auth endpoint with no other validators. -/
def fx5Def : EndpointDef := ⟨.required, none, none, none, none, fxAccept, none, none⟩

/-- Client with a default bearer strategy supplying token "D". -/
def fx5Opts : ClientOptions :=
  ⟨some (.lit "http://b"), fxFetch200, some (.bearer (fun _ => "D")), none, fxCodecs⟩

/-- Call overriding auth with a literal bearer token "T". -/
def fx5Args : CallArgs :=
  ⟨none, none, none, none, some (.override (.bearer (.val "T"))), none, none⟩

/-- A pre-request hook that tags the method it observed. -/
def fxHook : BeforeHook := fun ctx =>
  some ⟨ctx.init.method ++ "!", ctx.init.headers, ctx.init.body, ctx.init.signal⟩

/-- A call whose raw `init` object overrides every descriptor key. -/
def fx10Args : CallArgs :=
  ⟨none, none, none, none, none, none,
    some ⟨some "PATCH", some [("X", .str "1")], some (some "B"), some (some 9)⟩⟩

def fx10Opts2 : ClientOptions := { fx1Opts with hooks := some ⟨some [fxHook], none⟩ }

/-- Client whose base URL ends in a slash. -/
def fx9Opts : ClientOptions := ⟨some (.lit "http://b/"), fxFetch200, none, none, fxCodecs⟩

/-- A validator that accepts anything, parsing to the empty object. -/
def fxObj : RuntimeSchema := fun _ => .ok (.obj [])

/-- Endpoint declaring only a params validator (which produces an object
missing any referenced key). -/
def fx6Def : EndpointDef := ⟨.public, some fxObj, none, none, none, fxAccept, none, none⟩

/-- Endpoint declaring only a query validator. -/
def fx7Def : EndpointDef := ⟨.public, none, some fxAccept, none, none, fxNum, none, none⟩

/-- A call supplying the query object `{q: "x"}`. -/
def fx7Args : CallArgs :=
  ⟨none, some (.obj [("q", .str "x")]), none, none, none, none, none⟩

/- ## Helper lemmas -/

lemma decodeMaybe_text_ne {o : ClientOptions} {r : Response} {j : Value}
    (h : decodeMaybe o r = some j) : r.text ≠ "" := by
  intro he
  rw [decodeMaybe, likelyJson] at h
  rw [he] at h
  simp at h

lemma reverse_dropLast_chars (m : List Char) :
    m.reverse.dropLast = (m.drop 1).reverse := by
  cases m with
  | nil => simp
  | cons c ms => simp [List.reverse_cons, List.dropLast_concat]

lemma dropLast_reverse_eq (l : List Char) :
    l.dropLast.reverse = l.reverse.drop 1 := by
  have h := reverse_dropLast_chars l.reverse
  rw [List.reverse_reverse] at h
  rw [h, List.reverse_reverse]

lemma startsWithL_single {l : List Char} {c : Char}
    (h : startsWithL l [c] = true) : ∃ rest, l = c :: rest := by
  cases l with
  | nil => simp [startsWithL] at h
  | cons d ds =>
    simp [startsWithL] at h
    exact ⟨ds, by rw [h]⟩

lemma startsWithL_cons_double {c : Char} {cs : List Char} :
    startsWithL (c :: cs) [c, c] = startsWithL cs [c] := by
  simp [startsWithL]

lemma exceptIsOk_map {ε α β : Type} (f : α → β) (x : Except ε α) :
    exceptIsOk (x.map f) = exceptIsOk x := by
  cases x <;> rfl

lemma except_map_error {ε α β : Type} {f : α → β} {x : Except ε α} {e : ε}
    (h : x.map f = .error e) : x = .error e := by
  cases x with
  | ok v => simp [Except.map] at h
  | error e' => simpa [Except.map] using h

/-- The interpolation scanner only consults the parameter mapping at the
keys the template references. -/
lemma buildPathAux_congr (p1 p2 : Value) (l : List Char)
    (hag : ∀ nm, nm ∈ refKeysAux l → lookupField p1 nm = lookupField p2 nm) :
    buildPathAux p1 l = buildPathAux p2 l := by
  induction l using refKeysAux.induct with
  | case1 => rw [buildPathAux.eq_1, buildPathAux.eq_1]
  | case2 rest name hempty ih =>
    rw [buildPathAux.eq_2, buildPathAux.eq_2, if_pos hempty, if_pos hempty]
    rw [ih (fun nm hnm => hag nm (by rw [refKeysAux.eq_2, if_pos hempty]; exact hnm))]
  | case3 rest name hempty ih =>
    rw [buildPathAux.eq_2, buildPathAux.eq_2, if_neg hempty, if_neg hempty]
    have hkey : lookupField p1 ⟨rest.takeWhile isWordChar⟩ =
        lookupField p2 ⟨rest.takeWhile isWordChar⟩ :=
      hag _ (by rw [refKeysAux.eq_2, if_neg hempty]; exact List.mem_cons_self _ _)
    rw [← hkey,
      ih (fun nm hnm => hag nm (by
        rw [refKeysAux.eq_2, if_neg hempty]
        exact List.mem_cons_of_mem _ hnm))]
  | case4 c rest hc ih =>
    rw [buildPathAux.eq_3 p1 c rest hc, buildPathAux.eq_3 p2 c rest hc]
    rw [ih (fun nm hnm => hag nm (by rw [refKeysAux.eq_3 c rest hc]; exact hnm))]

/-- The scanner succeeds exactly when every referenced key has a present,
non-null parameter. -/
lemma buildPathAux_isOk (p : Value) (l : List Char) :
    exceptIsOk (buildPathAux p l) = (refKeysAux l).all (goodParam p) := by
  induction l using refKeysAux.induct with
  | case1 => rw [buildPathAux.eq_1, refKeysAux.eq_1]; rfl
  | case2 rest name hempty ih =>
    rw [buildPathAux.eq_2, if_pos hempty, refKeysAux.eq_2, if_pos hempty,
      exceptIsOk_map]
    exact ih
  | case3 rest name hempty ih =>
    rw [buildPathAux.eq_2, if_neg hempty, refKeysAux.eq_2, if_neg hempty,
      List.all_cons]
    cases hlk : lookupField p ⟨rest.takeWhile isWordChar⟩ with
    | none => simp [goodParam, hlk, exceptIsOk]
    | some v =>
      cases v with
      | null => simp [goodParam, hlk, exceptIsOk]
      | bool b => simp [goodParam, hlk, exceptIsOk_map, ih]
      | num n => simp [goodParam, hlk, exceptIsOk_map, ih]
      | str s => simp [goodParam, hlk, exceptIsOk_map, ih]
      | arr xs => simp [goodParam, hlk, exceptIsOk_map, ih]
      | obj fs => simp [goodParam, hlk, exceptIsOk_map, ih]
  | case4 c rest hc ih =>
    rw [buildPathAux.eq_3 p c rest hc, refKeysAux.eq_3 c rest hc, exceptIsOk_map]
    exact ih

/-- Every scanner failure is a `MissingPathParam` naming a referenced key
whose parameter is absent or null. -/
lemma buildPathAux_error_shape (p : Value) (l : List Char) (e : CallError)
    (h : buildPathAux p l = .error e) :
    ∃ nm, e = .missingPathParam nm ∧ nm ∈ refKeysAux l ∧ goodParam p nm = false := by
  induction l using refKeysAux.induct with
  | case1 => rw [buildPathAux.eq_1] at h; exact absurd h (by simp)
  | case2 rest name hempty ih =>
    rw [buildPathAux.eq_2, if_pos hempty] at h
    obtain ⟨nm, h1, h2, h3⟩ := ih (except_map_error h)
    exact ⟨nm, h1, by rw [refKeysAux.eq_2, if_pos hempty]; exact h2, h3⟩
  | case3 rest name hempty ih =>
    rw [buildPathAux.eq_2, if_neg hempty] at h
    cases hlk : lookupField p ⟨rest.takeWhile isWordChar⟩ with
    | none =>
      simp only [hlk, Except.error.injEq] at h
      refine ⟨⟨rest.takeWhile isWordChar⟩, h.symm, ?_, ?_⟩
      · rw [refKeysAux.eq_2, if_neg hempty]; exact List.mem_cons_self _ _
      · simp [goodParam, hlk]
    | some v =>
      cases v with
      | null =>
        simp only [hlk, Except.error.injEq] at h
        refine ⟨⟨rest.takeWhile isWordChar⟩, h.symm, ?_, ?_⟩
        · rw [refKeysAux.eq_2, if_neg hempty]; exact List.mem_cons_self _ _
        · simp [goodParam, hlk]
      | bool b =>
        simp only [hlk] at h
        obtain ⟨nm, h1, h2, h3⟩ := ih (except_map_error h)
        exact ⟨nm, h1,
          by rw [refKeysAux.eq_2, if_neg hempty]; exact List.mem_cons_of_mem _ h2, h3⟩
      | num n =>
        simp only [hlk] at h
        obtain ⟨nm, h1, h2, h3⟩ := ih (except_map_error h)
        exact ⟨nm, h1,
          by rw [refKeysAux.eq_2, if_neg hempty]; exact List.mem_cons_of_mem _ h2, h3⟩
      | str s =>
        simp only [hlk] at h
        obtain ⟨nm, h1, h2, h3⟩ := ih (except_map_error h)
        exact ⟨nm, h1,
          by rw [refKeysAux.eq_2, if_neg hempty]; exact List.mem_cons_of_mem _ h2, h3⟩
      | arr xs =>
        simp only [hlk] at h
        obtain ⟨nm, h1, h2, h3⟩ := ih (except_map_error h)
        exact ⟨nm, h1,
          by rw [refKeysAux.eq_2, if_neg hempty]; exact List.mem_cons_of_mem _ h2, h3⟩
      | obj fs =>
        simp only [hlk] at h
        obtain ⟨nm, h1, h2, h3⟩ := ih (except_map_error h)
        exact ⟨nm, h1,
          by rw [refKeysAux.eq_2, if_neg hempty]; exact List.mem_cons_of_mem _ h2, h3⟩
  | case4 c rest hc ih =>
    rw [buildPathAux.eq_3 p c rest hc] at h
    obtain ⟨nm, h1, h2, h3⟩ := ih (except_map_error h)
    exact ⟨nm, h1, by rw [refKeysAux.eq_3 c rest hc]; exact h2, h3⟩

lemma spSet_fresh (sp : SPList) (k v : String) (h : ∀ kv ∈ sp, kv.1 ≠ k) :
    spSet sp k v = sp ++ [(k, v)] := by
  induction sp with
  | nil => rfl
  | cons kv rest ih =>
    obtain ⟨k', v'⟩ := kv
    have hk : k' ≠ k := h (k', v') (List.mem_cons_self _ _)
    simp [spSet, hk, ih (fun kv hkv => h kv (List.mem_cons_of_mem _ hkv))]

lemma spAppend_fold (items : List Value) (k : String) (sp : SPList) :
    items.foldl (fun s it => spAppend s k (jsToString it)) sp =
      sp ++ items.map (fun it => (k, jsToString it)) := by
  induction items generalizing sp with
  | nil => simp
  | cons x xs ih =>
    rw [List.foldl_cons, ih]
    simp [spAppend]

/-- With distinct keys (the shape `Object.entries` produces), the
`URLSearchParams` accumulation refines the spec-side expansion. -/
lemma buildQueryPairs_spec (q : List (String × Value)) (sp : SPList)
    (hnd : (q.map Prod.fst).Nodup)
    (hfresh : ∀ kv ∈ sp, kv.1 ∉ q.map Prod.fst) :
    buildQueryPairs sp q = sp ++ specQueryPairs q := by
  induction q generalizing sp with
  | nil => simp [buildQueryPairs, specQueryPairs]
  | cons kv rest ih =>
    obtain ⟨k, v⟩ := kv
    have hnd0 : (k :: rest.map Prod.fst).Nodup := by simpa using hnd
    have hnd' : (rest.map Prod.fst).Nodup := hnd0.of_cons
    have hkmem : k ∉ rest.map Prod.fst := (List.nodup_cons.mp hnd0).1
    have hfresh' : ∀ kv ∈ sp, kv.1 ∉ rest.map Prod.fst := by
      intro kv hkv
      have h0 := hfresh kv hkv
      simp only [List.map_cons, List.mem_cons] at h0
      exact fun hx => h0 (Or.inr hx)
    have hne : ∀ kv ∈ sp, kv.1 ≠ k := by
      intro kv hkv
      have h0 := hfresh kv hkv
      simp only [List.map_cons, List.mem_cons] at h0
      exact fun hx => h0 (Or.inl hx)
    have hfr2 : ∀ w : String, ∀ kv ∈ sp ++ [(k, w)], kv.1 ∉ rest.map Prod.fst := by
      intro w kv hkv
      rcases List.mem_append.mp hkv with hin | hin
      · exact hfresh' kv hin
      · simp only [List.mem_singleton] at hin
        subst hin
        exact hkmem
    cases v with
    | null =>
      simp only [buildQueryPairs, specQueryPairs]
      exact ih sp hnd' hfresh'
    | arr items =>
      simp only [buildQueryPairs, specQueryPairs, spAppend_fold]
      rw [ih (sp ++ items.map (fun it => (k, jsToString it))) hnd' ?_,
        List.append_assoc]
      intro kv hkv
      rcases List.mem_append.mp hkv with hin | hin
      · exact hfresh' kv hin
      · obtain ⟨it, _, rfl⟩ := List.mem_map.mp hin
        exact hkmem
    | bool b =>
      simp only [buildQueryPairs, specQueryPairs]
      rw [spSet_fresh sp k _ hne, ih _ hnd' (hfr2 _), List.append_assoc]
      rfl
    | num n =>
      simp only [buildQueryPairs, specQueryPairs]
      rw [spSet_fresh sp k _ hne, ih _ hnd' (hfr2 _), List.append_assoc]
      rfl
    | str s =>
      simp only [buildQueryPairs, specQueryPairs]
      rw [spSet_fresh sp k _ hne, ih _ hnd' (hfr2 _), List.append_assoc]
      rfl
    | obj fs =>
      simp only [buildQueryPairs, specQueryPairs]
      rw [spSet_fresh sp k _ hne, ih _ hnd' (hfr2 _), List.append_assoc]
      rfl

lemma validateField_some_error {sch : RuntimeSchema} {inp : Option Value}
    {issues : Value} (h : sch inp = .error issues) :
    validateField (some sch) inp = .error issues := by
  simp [validateField, h, Except.map]

/-- Shared shape lemma: a failing declared validator (all earlier fields
passing) aborts the call with the request `ValidationError` and no
transport dispatch. -/
lemma call_request_validation_fail
    (c : Contract) (o : ClientOptions) (k : String) (a : CallArgs)
    (defn : EndpointDef) (mp : MethodPath) (i : Fin 4) (sch : RuntimeSchema)
    (issues : Value)
    (hlook : getEndpoint c k = some defn)
    (hkey : parseKey k = .ok mp)
    (hprev : ∀ j : Fin 4, j < i →
      ∃ v, validateField (fieldSchema defn j) (fieldArg a j) = .ok v)
    (hsch : fieldSchema defn i = some sch)
    (hfail : sch (fieldArg a i) = .error issues) :
    call c o k a =
      (.error (.validation ⟨fieldMessage i, k,
        resolveBaseUrl o.baseUrl ++ mp.path, .request, issues⟩), 0) := by
  fin_cases i
  · simp only [fieldSchema] at hsch
    simp only [fieldArg] at hfail
    simp only [call, prepareRequest, hlook, hkey]
    rw [hsch, validateField_some_error hfail]
    rfl
  · obtain ⟨v0, h0⟩ := hprev 0 (by decide)
    simp only [fieldSchema, fieldArg] at h0 hsch hfail
    simp only [call, prepareRequest, hlook, hkey]
    rw [h0, hsch, validateField_some_error hfail]
    rfl
  · obtain ⟨v0, h0⟩ := hprev 0 (by decide)
    obtain ⟨v1, h1⟩ := hprev 1 (by decide)
    simp only [fieldSchema, fieldArg] at h0 h1 hsch hfail
    simp only [call, prepareRequest, hlook, hkey]
    rw [h0, h1, hsch, validateField_some_error hfail]
    rfl
  · obtain ⟨v0, h0⟩ := hprev 0 (by decide)
    obtain ⟨v1, h1⟩ := hprev 1 (by decide)
    obtain ⟨v2, h2⟩ := hprev 2 (by decide)
    simp only [fieldSchema, fieldArg] at h0 h1 h2 hsch hfail
    simp only [call, prepareRequest, hlook, hkey]
    rw [h0, h1, h2, hsch, validateField_some_error hfail]
    rfl

/-- A successfully prepared call dispatches exactly once and classifies
the post-hook response. -/
lemma call_dispatch (c : Contract) (o : ClientOptions) (k : String)
    (a : CallArgs) (p : Prepared) (hprep : prepareRequest c o k a = .ok p) :
    call c o k a =
      (classifyResponse o p.defn k p.url (dispatchedResponse o k p), 1) := by
  simp only [call, hprep]

lemma classify_2xx (o : ClientOptions) (defn : EndpointDef) (k url : String)
    (r : Response) (hok : 200 ≤ r.status ∧ r.status ≤ 299) :
    classifyResponse o defn k url r =
      match defn.response (some (decodedInput o r)) with
      | .ok v => .ok v
      | .error issues =>
        .error (.validation ⟨"Response validation failed", k, url, .response, issues⟩) := by
  simp only [classifyResponse, if_pos hok]

lemma classify_non2xx (o : ClientOptions) (defn : EndpointDef) (k url : String)
    (r : Response) (hnot : ¬(200 ≤ r.status ∧ r.status ≤ 299)) :
    classifyResponse o defn k url r =
      .error (.api ⟨"API request failed: " ++ toString r.status ++ " " ++ r.statusText,
        r.status, k, url, (if r.text = "" then none else some r.text),
        decodeMaybe o r, errorParse defn (decodeMaybe o r)⟩) := by
  simp only [classifyResponse, if_neg hnot]

/- ## Claims -/

/-- Claim C1: for an endpoint declaring a params/query/body/headers
validator, a call whose corresponding argument fails that validator's
parse throws `ValidationError` of kind `request`, identifying the field
(via the message) and carrying the thrown payload as `issues`, with zero
transport invocations (the second component); fields are checked in the
fixed order params (0), query (1), body (2), headers (3), and given that
all fields before `i` pass, the failure of field `i` is the one
reported. -/
theorem claim1_request_validation_aborts
    (c : Contract) (o : ClientOptions) (k : String) (a : CallArgs)
    (defn : EndpointDef) (mp : MethodPath) (i : Fin 4) (sch : RuntimeSchema)
    (issues : Value)
    (hlook : getEndpoint c k = some defn)
    (hkey : parseKey k = .ok mp)
    (hprev : ∀ j : Fin 4, j < i →
      ∃ v, validateField (fieldSchema defn j) (fieldArg a j) = .ok v)
    (hsch : fieldSchema defn i = some sch)
    (hfail : sch (fieldArg a i) = .error issues) :
    call c o k a =
      (.error (.validation ⟨fieldMessage i, k,
        resolveBaseUrl o.baseUrl ++ mp.path, .request, issues⟩), 0) :=
  call_request_validation_fail c o k a defn mp i sch issues hlook hkey hprev hsch hfail

/-- Witness for C1 at a concrete endpoint whose query validator rejects
(params validator passes first). -/
theorem claim1_request_validation_aborts_witness :
    call [("GET /a", fx1Def)] fx1Opts "GET /a" fxNoArgs =
      (.error (.validation ⟨"Invalid query", "GET /a", "http://b/a",
        .request, .str "bad"⟩), 0) := by
  have h := claim1_request_validation_aborts [("GET /a", fx1Def)] fx1Opts
    "GET /a" fxNoArgs fx1Def ⟨"GET", "/a"⟩ 1 fxReject (.str "bad")
    rfl rfl
    (by
      intro j hj
      fin_cases j
      · exact ⟨some .null, rfl⟩
      · exact absurd hj (by decide)
      · exact absurd hj (by decide)
      · exact absurd hj (by decide))
    rfl rfl
  simpa using h

/-- Claim C2: when the (post-hook) response has a 2xx status, the call
reduces to validating the decoded JSON body - or, when no structured body
was decoded, the raw body text (both inside `decodedInput`) - against the
endpoint's mandatory response schema: a parse failure throws
`ValidationError` of kind `response` carrying the validator's issues, and
a success returns the validated value. -/
theorem claim2_response_validation
    (c : Contract) (o : ClientOptions) (k : String) (a : CallArgs)
    (p : Prepared) (r : Response)
    (hprep : prepareRequest c o k a = .ok p)
    (hr : dispatchedResponse o k p = r)
    (hok : 200 ≤ r.status ∧ r.status ≤ 299) :
    call c o k a =
      ((match p.defn.response (some (decodedInput o r)) with
        | .ok v => .ok v
        | .error issues =>
          .error (.validation ⟨"Response validation failed", k, p.url, .response, issues⟩)), 1) := by
  rw [call_dispatch c o k a p hprep, hr, classify_2xx o p.defn k p.url r hok]

/-- Witness for C2: one 2xx call whose decoded body passes the response
schema (returning the coerced value) and one whose body fails it
(throwing the response `ValidationError`). -/
theorem claim2_response_validation_witness :
    (call [("GET /a", fx2Def)] fx1Opts "GET /a" fxNoArgs = (.ok (.num 7), 1)) ∧
    (call [("GET /a", fx2BadDef)] fx1Opts "GET /a" fxNoArgs =
      (.error (.validation ⟨"Response validation failed", "GET /a", "http://b/a",
        .response, .str "bad"⟩), 1)) := by
  constructor
  · exact claim2_response_validation [("GET /a", fx2Def)] fx1Opts "GET /a" fxNoArgs
      ⟨fx2Def, "http://b/a", ⟨"GET", [], none, none⟩⟩
      ⟨200, "OK", some "application/json", "7"⟩ rfl rfl (by decide)
  · exact claim2_response_validation [("GET /a", fx2BadDef)] fx1Opts "GET /a" fxNoArgs
      ⟨fx2BadDef, "http://b/a", ⟨"GET", [], none, none⟩⟩
      ⟨200, "OK", some "application/json", "7"⟩ rfl rfl (by decide)

/-- Counterexample to C3 as stated: a non-2xx response whose body text is
empty produces an `ApiError` whose `rawText` is absent (`none`), not the
exact (empty) body text - `if (text)` guards the attachment. -/
theorem claim3_rawtext_counterexample :
    call [("GET /a", fx2Def)] fx3Opts "GET /a" fxNoArgs =
      (.error (.api ⟨"API request failed: 500 ", 500, "GET /a", "http://b/a",
        none, none, none⟩), 1) ∧
    (fxFetch500 "http://b/a" ⟨"GET", [], none, none⟩).text = "" ∧
    (none : Option String) ≠ some "" := by
  refine ⟨rfl, rfl, by decide⟩

/-- Claim C3 (amended): a non-2xx (post-hook) response throws `ApiError`
whose `status` is the response status and whose `rawText` equals the
exact body text whenever that text is nonempty (absent when empty); the
decoded body (`decodeMaybe`) is attached whenever decoding produced a
value, even with no or a non-matching error schema. -/
theorem claim3_apierror
    (c : Contract) (o : ClientOptions) (k : String) (a : CallArgs)
    (p : Prepared) (r : Response)
    (hprep : prepareRequest c o k a = .ok p)
    (hr : dispatchedResponse o k p = r)
    (hnot : ¬(200 ≤ r.status ∧ r.status ≤ 299)) :
    call c o k a =
      (.error (.api ⟨"API request failed: " ++ toString r.status ++ " " ++ r.statusText,
        r.status, k, p.url, (if r.text = "" then none else some r.text),
        decodeMaybe o r, errorParse p.defn (decodeMaybe o r)⟩), 1) := by
  rw [call_dispatch c o k a p hprep, hr, classify_non2xx o p.defn k p.url r hnot]

/-- Witness for C3 (amended): a 404 with nonempty non-JSON body "oops"
yields `ApiError` with status 404 and `rawText = some "oops"`. -/
theorem claim3_apierror_witness :
    call [("GET /a", fx2Def)] fx4Opts "GET /a" fxNoArgs =
      (.error (.api ⟨"API request failed: 404 Not Found", 404, "GET /a",
        "http://b/a", some "oops", none, none⟩), 1) := by
  have h := claim3_apierror [("GET /a", fx2Def)] fx4Opts "GET /a" fxNoArgs
    ⟨fx2Def, "http://b/a", ⟨"GET", [], none, none⟩⟩
    ⟨404, "Not Found", none, "oops"⟩ rfl rfl (by decide)
  exact h

/-- Claim C4: on a non-2xx response with a decoded JSON body `j`, the
`ApiError` carries `rawJson = some j`, `rawText = some` (the nonempty)
body text, and `parsedError = errorParse` - which equals the schema-parsed
value when a declared error schema accepts `j`, and is absent when the
schema rejects `j` or no error schema is declared. -/
theorem claim4_parsederror
    (c : Contract) (o : ClientOptions) (k : String) (a : CallArgs)
    (p : Prepared) (r : Response) (j : Value)
    (hprep : prepareRequest c o k a = .ok p)
    (hr : dispatchedResponse o k p = r)
    (hnot : ¬(200 ≤ r.status ∧ r.status ≤ 299))
    (hdec : decodeMaybe o r = some j) :
    call c o k a =
      (.error (.api ⟨"API request failed: " ++ toString r.status ++ " " ++ r.statusText,
        r.status, k, p.url, some r.text, some j, errorParse p.defn (some j)⟩), 1) ∧
    (∀ schE vE, p.defn.error = some schE → schE (some j) = .ok vE →
      errorParse p.defn (some j) = some vE) ∧
    (∀ schE eE, p.defn.error = some schE → schE (some j) = .error eE →
      errorParse p.defn (some j) = none) ∧
    (p.defn.error = none → errorParse p.defn (some j) = none) := by
  refine ⟨?_, ?_, ?_, ?_⟩
  · rw [call_dispatch c o k a p hprep, hr, classify_non2xx o p.defn k p.url r hnot,
      hdec, if_neg (decodeMaybe_text_ne hdec)]
  · intro schE vE hse hv
    simp [errorParse, hse, hv]
  · intro schE eE hse hv
    simp [errorParse, hse, hv]
  · intro hse
    simp [errorParse, hse]

/-- Witness for C4: a 500 whose JSON body `7` matches the declared error
schema yields `parsedError = some 7` with `rawJson`/`rawText` attached. -/
theorem claim4_parsederror_witness :
    call [("GET /a", fx4jDef)] fx4jOpts "GET /a" fxNoArgs =
      (.error (.api ⟨"API request failed: 500 Server Error", 500, "GET /a",
        "http://b/a", some "7", some (.num 7), some (.num 7)⟩), 1) := by
  have h := claim4_parsederror [("GET /a", fx4jDef)] fx4jOpts "GET /a" fxNoArgs
    ⟨fx4jDef, "http://b/a", ⟨"GET", [], none, none⟩⟩
    ⟨500, "Server Error", some "application/json", "7"⟩ (.num 7)
    rfl rfl (by decide) rfl
  exact h.1

/-- Claim C5: on a `required`-auth endpoint (here with no other header
sources, so the dispatched headers are exactly the auth contribution) the
dispatched descriptor's headers come from `callAuthHeaders`, which uses
the per-call override when a non-sentinel override is supplied and the
client default strategy under the `true` sentinel or no override; a
bearer strategy with nonempty token yields exactly
`Authorization: Bearer <token>`, an empty/falsy token yields no headers,
and a cookie strategy yields no headers. -/
theorem claim5_auth_resolution
    (c : Contract) (o : ClientOptions) (k : String) (a : CallArgs)
    (defn : EndpointDef) (mp : MethodPath)
    (s : Option AuthStrategy) (ov : AuthOverride) (tokf : Unit → String) (tok : String)
    (hlook : getEndpoint c k = some defn)
    (hkey : parseKey k = .ok mp)
    (hreq : defn.auth = .required)
    (hparams : defn.params = none) (hquery : defn.query = none)
    (hbody : defn.body = none) (hheaders : defn.headers = none)
    (hct : defn.contentType = none)
    (hinit : a.init = none)
    (hbefore : beforeHooksOf o = []) :
    prepareRequest c o k a = .ok ⟨defn,
      joinURL (resolveBaseUrl o.baseUrl) (mp.path ++ ""),
      ⟨mp.method, objAssign [] (callAuthHeaders .required a.auth o.auth),
        none, a.signal⟩⟩ ∧
    callAuthHeaders .required (some (.override ov)) s = resolveOverrideAuthHeaders ov ∧
    callAuthHeaders .required (some .useDefault) s = resolveAuthHeaders s ∧
    callAuthHeaders .required none s = resolveAuthHeaders s ∧
    resolveAuthHeaders (some (.bearer tokf)) =
      (if tokf () = "" then [] else [("Authorization", "Bearer " ++ tokf ())]) ∧
    resolveOverrideAuthHeaders (.bearer (.val tok)) =
      (if tok = "" then [] else [("Authorization", "Bearer " ++ tok)]) ∧
    resolveOverrideAuthHeaders (.bearer (.fn tokf)) =
      (if tokf () = "" then [] else [("Authorization", "Bearer " ++ tokf ())]) ∧
    resolveAuthHeaders (some .cookie) = [] ∧
    resolveOverrideAuthHeaders .cookie = [] := by
  refine ⟨?_, rfl, rfl, rfl, rfl, rfl, rfl, rfl, rfl⟩
  simp only [prepareRequest, hlook, hkey, hparams, hquery, hbody, hheaders, hct,
    hinit, hreq, hbefore, validateField, buildPathStep, truthyOpt, queryStep,
    headerProps, Option.getD, Option.isSome, List.foldl]
  rfl

/-- Witness for C5: a bearer override with token "T" puts exactly
`Authorization: Bearer T` on the dispatched descriptor, overriding the
client's default bearer strategy (token "D"). -/
theorem claim5_auth_resolution_witness :
    prepareRequest [("GET /a", fx5Def)] fx5Opts "GET /a" fx5Args =
      .ok ⟨fx5Def, "http://b/a",
        ⟨"GET", [("Authorization", Value.str "Bearer T")], none, none⟩⟩ := by
  have h := claim5_auth_resolution [("GET /a", fx5Def)] fx5Opts "GET /a" fx5Args
    fx5Def ⟨"GET", "/a"⟩ none .cookie (fun _ => "") ""
    rfl rfl rfl rfl rfl rfl rfl rfl rfl rfl
  exact h.1

/-- Counterexample to C9 as stated: a request-kind `ValidationError`
carries `baseUrl ++ pathTemplate` verbatim ("http://b//a" here), which is
not the resolved URL of the call - `joinURL` would normalize the slash
("http://b/a"), and interpolation/query encoding never ran. -/
theorem claim9_url_counterexample :
    call [("GET /a", fx1Def)] fx9Opts "GET /a" fxNoArgs =
      (.error (.validation ⟨"Invalid query", "GET /a", "http://b//a",
        .request, .str "bad"⟩), 0) ∧
    joinURL "http://b/" "/a" = "http://b/a" ∧
    ("http://b//a" : String) ≠ "http://b/a" :=
  ⟨rfl, rfl, by decide⟩

/-- Claim C9 (amended): every structured error carries the endpoint key;
`ApiError` and response-kind `ValidationError` carry the resolved URL
(the prepared `p.url`), while request-kind `ValidationError` instead
carries the resolved base concatenated with the raw path template
(before interpolation, query encoding and slash-normalizing join). -/
theorem claim9_error_metadata
    (c1 : Contract) (o1 : ClientOptions) (k1 : String) (a1 : CallArgs)
    (defn1 : EndpointDef) (mp1 : MethodPath) (i : Fin 4) (sch : RuntimeSchema)
    (issues : Value)
    (c2 : Contract) (o2 : ClientOptions) (k2 : String) (a2 : CallArgs)
    (p2 : Prepared) (r2 : Response) (iss2 : Value)
    (c3 : Contract) (o3 : ClientOptions) (k3 : String) (a3 : CallArgs)
    (p3 : Prepared) (r3 : Response)
    (hlook1 : getEndpoint c1 k1 = some defn1)
    (hkey1 : parseKey k1 = .ok mp1)
    (hprev1 : ∀ j : Fin 4, j < i →
      ∃ v, validateField (fieldSchema defn1 j) (fieldArg a1 j) = .ok v)
    (hsch1 : fieldSchema defn1 i = some sch)
    (hfail1 : sch (fieldArg a1 i) = .error issues)
    (hprep2 : prepareRequest c2 o2 k2 a2 = .ok p2)
    (hr2 : dispatchedResponse o2 k2 p2 = r2)
    (hok2 : 200 ≤ r2.status ∧ r2.status ≤ 299)
    (hresp2 : p2.defn.response (some (decodedInput o2 r2)) = .error iss2)
    (hprep3 : prepareRequest c3 o3 k3 a3 = .ok p3)
    (hr3 : dispatchedResponse o3 k3 p3 = r3)
    (hnot3 : ¬(200 ≤ r3.status ∧ r3.status ≤ 299)) :
    call c1 o1 k1 a1 =
      (.error (.validation ⟨fieldMessage i, k1,
        resolveBaseUrl o1.baseUrl ++ mp1.path, .request, issues⟩), 0) ∧
    call c2 o2 k2 a2 =
      (.error (.validation ⟨"Response validation failed", k2, p2.url,
        .response, iss2⟩), 1) ∧
    call c3 o3 k3 a3 =
      (.error (.api ⟨"API request failed: " ++ toString r3.status ++ " " ++ r3.statusText,
        r3.status, k3, p3.url, (if r3.text = "" then none else some r3.text),
        decodeMaybe o3 r3, errorParse p3.defn (decodeMaybe o3 r3)⟩), 1) := by
  refine ⟨?_, ?_, ?_⟩
  · exact call_request_validation_fail c1 o1 k1 a1 defn1 mp1 i sch issues
      hlook1 hkey1 hprev1 hsch1 hfail1
  · rw [call_dispatch c2 o2 k2 a2 p2 hprep2, hr2,
      classify_2xx o2 p2.defn k2 p2.url r2 hok2, hresp2]
  · rw [call_dispatch c3 o3 k3 a3 p3 hprep3, hr3,
      classify_non2xx o3 p3.defn k3 p3.url r3 hnot3]

/-- Witness for C9 (amended) at one error of each kind. -/
theorem claim9_error_metadata_witness :
    (call [("GET /a", fx1Def)] fx9Opts "GET /a" fxNoArgs =
      (.error (.validation ⟨"Invalid query", "GET /a", "http://b//a",
        .request, .str "bad"⟩), 0)) ∧
    (call [("GET /a", fx2BadDef)] fx1Opts "GET /a" fxNoArgs =
      (.error (.validation ⟨"Response validation failed", "GET /a", "http://b/a",
        .response, .str "bad"⟩), 1)) ∧
    (call [("GET /a", fx2Def)] fx4Opts "GET /a" fxNoArgs =
      (.error (.api ⟨"API request failed: 404 Not Found", 404, "GET /a",
        "http://b/a", some "oops", none, none⟩), 1)) := by
  have h := claim9_error_metadata
    [("GET /a", fx1Def)] fx9Opts "GET /a" fxNoArgs fx1Def ⟨"GET", "/a"⟩ 1
    fxReject (.str "bad")
    [("GET /a", fx2BadDef)] fx1Opts "GET /a" fxNoArgs
    ⟨fx2BadDef, "http://b/a", ⟨"GET", [], none, none⟩⟩
    ⟨200, "OK", some "application/json", "7"⟩ (.str "bad")
    [("GET /a", fx2Def)] fx4Opts "GET /a" fxNoArgs
    ⟨fx2Def, "http://b/a", ⟨"GET", [], none, none⟩⟩
    ⟨404, "Not Found", none, "oops"⟩
    rfl rfl
    (by
      intro j hj
      fin_cases j
      · exact ⟨some .null, rfl⟩
      · exact absurd hj (by decide)
      · exact absurd hj (by decide)
      · exact absurd hj (by decide))
    rfl rfl
    rfl rfl (by decide) rfl
    rfl rfl (by decide)
  exact h

/-- Claim C10: the raw `init` object is spread last into the request
descriptor: with every key present it replaces the constructed method,
headers, body and signal wholesale (first conjunct), the transport then
observes exactly the overridden descriptor (second conjunct), a
pre-request hook also observes it as its context (third conjunct), and a
single-key override replaces exactly that key (final conjuncts). -/
theorem claim10_init_spread
    (c : Contract) (o o2 : ClientOptions) (k : String) (a : CallArgs)
    (defn : EndpointDef) (mp : MethodPath)
    (pO qO bO hO : Option Value) (bp : String)
    (m : String) (hs : List (String × Value)) (b : Option String) (sg : Option Nat)
    (i0 : RequestInit) (m0 : String) (hs0 : List (String × Value))
    (b0 : Option String) (sg0 : Option Nat)
    (f : BeforeHook) (hk2 : Option Hooks)
    (hlook : getEndpoint c k = some defn)
    (hkey : parseKey k = .ok mp)
    (hp : validateField defn.params a.params = .ok pO)
    (hq : validateField defn.query a.query = .ok qO)
    (hb : validateField defn.body a.body = .ok bO)
    (hh : validateField defn.headers a.headers = .ok hO)
    (hbp : buildPathStep pO mp.path = .ok bp)
    (hov : a.init = some ⟨some m, some hs, some b, some sg⟩)
    (hbefore : beforeHooksOf o = [])
    (ho2 : o2 = { o with hooks := hk2 })
    (hbefore2 : beforeHooksOf o2 = [f]) :
    prepareRequest c o k a =
      .ok ⟨defn, joinURL (resolveBaseUrl o.baseUrl) (bp ++ queryStep qO),
        ⟨m, hs, b, sg⟩⟩ ∧
    call c o k a =
      (classifyResponse o defn k (joinURL (resolveBaseUrl o.baseUrl) (bp ++ queryStep qO))
        (dispatchedResponse o k
          ⟨defn, joinURL (resolveBaseUrl o.baseUrl) (bp ++ queryStep qO),
            ⟨m, hs, b, sg⟩⟩), 1) ∧
    prepareRequest c o2 k a =
      .ok ⟨defn, joinURL (resolveBaseUrl o.baseUrl) (bp ++ queryStep qO),
        (f ⟨k, joinURL (resolveBaseUrl o.baseUrl) (bp ++ queryStep qO),
          ⟨m, hs, b, sg⟩⟩).getD ⟨m, hs, b, sg⟩⟩ ∧
    applyInitOverride i0 ⟨some m0, none, none, none⟩ =
      ⟨m0, i0.headers, i0.body, i0.signal⟩ ∧
    applyInitOverride i0 ⟨none, some hs0, none, none⟩ =
      ⟨i0.method, hs0, i0.body, i0.signal⟩ ∧
    applyInitOverride i0 ⟨none, none, some b0, none⟩ =
      ⟨i0.method, i0.headers, b0, i0.signal⟩ ∧
    applyInitOverride i0 ⟨none, none, none, some sg0⟩ =
      ⟨i0.method, i0.headers, i0.body, sg0⟩ := by
  have h1 : prepareRequest c o k a =
      .ok ⟨defn, joinURL (resolveBaseUrl o.baseUrl) (bp ++ queryStep qO),
        ⟨m, hs, b, sg⟩⟩ := by
    simp only [prepareRequest, hlook, hkey, hp, hq, hb, hh, hbp, hov, hbefore,
      applyInitOverride, Option.getD, List.foldl]
  have h2 : prepareRequest c o2 k a =
      .ok ⟨defn, joinURL (resolveBaseUrl o.baseUrl) (bp ++ queryStep qO),
        (f ⟨k, joinURL (resolveBaseUrl o.baseUrl) (bp ++ queryStep qO),
          ⟨m, hs, b, sg⟩⟩).getD ⟨m, hs, b, sg⟩⟩ := by
    subst ho2
    simp only [prepareRequest, hlook, hkey, hp, hq, hb, hh, hbp, hov, hbefore2,
      applyInitOverride, Option.getD, List.foldl]
  refine ⟨h1, ?_, h2, rfl, rfl, rfl, rfl⟩
  simp only [call, h1]

/-- Witness for C10: the overriding `init` replaces method/headers/body/
signal, and a pre-request hook sees the overridden method ("PATCH"). -/
theorem claim10_init_spread_witness :
    prepareRequest [("GET /a", fx2Def)] fx1Opts "GET /a" fx10Args =
      .ok ⟨fx2Def, "http://b/a",
        ⟨"PATCH", [("X", Value.str "1")], some "B", some 9⟩⟩ ∧
    prepareRequest [("GET /a", fx2Def)] fx10Opts2 "GET /a" fx10Args =
      .ok ⟨fx2Def, "http://b/a",
        ⟨"PATCH!", [("X", Value.str "1")], some "B", some 9⟩⟩ := by
  have h := claim10_init_spread [("GET /a", fx2Def)] fx1Opts fx10Opts2 "GET /a"
    fx10Args fx2Def ⟨"GET", "/a"⟩ none none none none "/a" "PATCH"
    [("X", .str "1")] (some "B") (some 9)
    ⟨"GET", [], none, none⟩ "M" [] none none fxHook (some ⟨some [fxHook], none⟩)
    rfl rfl rfl rfl rfl rfl rfl rfl rfl rfl rfl
  exact ⟨h.1, h.2.2.1⟩

/-- Counterexample to C8 as stated: `joinURL` strips only one trailing
slash from the base, so a base ending in "//" keeps two separating
slashes instead of exactly one. -/
theorem claim8_counterexample :
    joinURL "http://x//" "a" = "http://x//a" ∧
    ("http://x//a" : String) ≠ "http://x/a" :=
  ⟨rfl, by decide⟩

/-- Claim C8 (amended): for a nonempty base with at most one trailing
slash and a path with at most one leading slash, joining yields the
trimmed base, exactly one separating slash, and the trimmed path - the
base's single trailing slash is stripped and a leading slash is added to
the path only when missing; the two trimmed parts provably carry no
further slash at the junction. -/
theorem claim8_join_amended (base path : String)
    (hb : base ≠ "")
    (h2 : strEndsWith base "//" = false)
    (hp2 : strStartsWith path "//" = false) :
    joinURL base path =
      (if strEndsWith base "/" then strDropLast base else base) ++ "/" ++
      (if strStartsWith path "/" then (⟨path.data.drop 1⟩ : String) else path) ∧
    strEndsWith (if strEndsWith base "/" then strDropLast base else base) "/" = false ∧
    strStartsWith (if strStartsWith path "/" then (⟨path.data.drop 1⟩ : String) else path) "/" = false := by
  have hslash : ("/" : String).data = ['/'] := rfl
  refine ⟨?_, ?_, ?_⟩
  · rw [joinURL, if_neg hb]
    cases hS : strStartsWith path "/" with
    | true =>
      obtain ⟨rest, hrest⟩ := startsWithL_single
        (show startsWithL path.data ['/'] = true by
          rw [strStartsWith, hslash] at hS; exact hS)
      simp only [hS, if_pos]
      apply String.ext
      simp [String.data_append, hrest, hslash]
    | false =>
      simp only [hS, Bool.false_eq_true, if_neg, reduceIte]
      apply String.ext
      simp [String.data_append]
  · cases hE : strEndsWith base "/" with
    | true =>
      simp only [if_pos]
      obtain ⟨r, hr⟩ := startsWithL_single
        (show startsWithL base.data.reverse ['/'] = true by
          rw [strEndsWith, hslash] at hE; simpa using hE)
      have h2' : startsWithL r ['/'] = false := by
        rw [strEndsWith] at h2
        have hx : (("//" : String).data).reverse = ['/', '/'] := rfl
        rw [hx, hr, startsWithL_cons_double] at h2
        exact h2
      have hgoal : (base.data.dropLast).reverse = r := by
        rw [dropLast_reverse_eq, hr]
        rfl
      show startsWithL (base.data.dropLast).reverse (("/" : String).data).reverse = false
      rw [hgoal]
      simpa [hslash] using h2'
    | false =>
      simp [hE]
  · cases hS : strStartsWith path "/" with
    | true =>
      obtain ⟨rest, hrest⟩ := startsWithL_single
        (show startsWithL path.data ['/'] = true by
          rw [strStartsWith, hslash] at hS; exact hS)
      simp only [hS, if_pos]
      have hp2' : startsWithL rest ['/'] = false := by
        rw [strStartsWith] at hp2
        have hx : ("//" : String).data = ['/', '/'] := rfl
        rw [hx, hrest, startsWithL_cons_double] at hp2
        exact hp2
      show startsWithL (path.data.drop 1) (("/" : String).data) = false
      rw [hrest]
      simpa [hslash] using hp2'
    | false =>
      simp [hS]

/-- Witness for C8 (amended) at base "http://b" and path "/a". -/
theorem claim8_join_amended_witness :
    ("http://b" : String) ≠ "" ∧ strEndsWith "http://b" "//" = false ∧
    strStartsWith "/a" "//" = false ∧
    joinURL "http://b" "/a" = "http://b" ++ "/" ++ "a" := by
  have h := claim8_join_amended "http://b" "/a" (by decide) (by decide) (by decide)
  refine ⟨by decide, by decide, by decide, ?_⟩
  have h1 := h.1
  simpa using h1

/-- Claim C6: interpolation replaces each `:name` sigil with the
URL-encoded string form of the parameter (concrete spec example, first
conjunct); the result depends only on the referenced keys, so extra
parameter entries are ignored (second conjunct); it succeeds exactly when
every referenced key has a present non-null parameter (third conjunct);
every failure is a `MissingPathParam` naming such a key (fourth
conjunct); and when interpolation fails the call aborts with that error
and zero transport dispatches (fifth conjunct). -/
theorem claim6_path_interpolation
    (t : String) (p1 p2 : Value) (e : CallError)
    (c : Contract) (o : ClientOptions) (k : String) (a : CallArgs)
    (defn : EndpointDef) (mp : MethodPath) (pv : Value)
    (qO bO hO : Option Value) (n : String)
    (hagree : ∀ nm, nm ∈ referencedKeys t → lookupField p1 nm = lookupField p2 nm)
    (herr : buildPath t p1 = .error e)
    (hlook : getEndpoint c k = some defn)
    (hkey : parseKey k = .ok mp)
    (hp : validateField defn.params a.params = .ok (some pv))
    (hq : validateField defn.query a.query = .ok qO)
    (hb : validateField defn.body a.body = .ok bO)
    (hh : validateField defn.headers a.headers = .ok hO)
    (htr : truthy pv = true)
    (hfail : buildPath mp.path pv = .error (.missingPathParam n)) :
    buildPath "/items/id/:id" (.obj [("id", .str "1")]) = .ok "/items/id/1" ∧
    buildPath t p1 = buildPath t p2 ∧
    exceptIsOk (buildPath t p1) = (referencedKeys t).all (goodParam p1) ∧
    (∃ nm, e = .missingPathParam nm ∧ nm ∈ referencedKeys t ∧
      goodParam p1 nm = false) ∧
    call c o k a = (.error (.missingPathParam n), 0) := by
  refine ⟨?_, ?_, ?_, ?_, ?_⟩
  · simp +decide [buildPath, buildPathAux.eq_1, buildPathAux.eq_2, buildPathAux.eq_3,
      lookupField, jsToString, encodeURIComponent, isUriUnreserved, isWordChar,
      Except.map]
  · rw [buildPath, buildPath, buildPathAux_congr p1 p2 t.data hagree]
  · rw [buildPath, exceptIsOk_map]
    exact buildPathAux_isOk p1 t.data
  · rw [buildPath] at herr
    exact buildPathAux_error_shape p1 t.data e (except_map_error herr)
  · simp only [call, prepareRequest, hlook, hkey, hp, hq, hb, hh]
    simp only [buildPathStep, truthyOpt, htr, if_pos, Option.getD, hfail]

/-- Witness for C6 at template "/x/:id" and an empty parameter object. -/
theorem claim6_path_interpolation_witness :
    buildPath "/items/id/:id" (.obj [("id", .str "1")]) = .ok "/items/id/1" ∧
    buildPath "/x/:id" (.obj []) = buildPath "/x/:id" (.obj [("zzz", .str "q")]) ∧
    exceptIsOk (buildPath "/x/:id" (.obj [])) =
      (referencedKeys "/x/:id").all (goodParam (.obj [])) ∧
    (∃ nm, CallError.missingPathParam "id" = .missingPathParam nm ∧
      nm ∈ referencedKeys "/x/:id" ∧ goodParam (.obj []) nm = false) ∧
    call [("GET /x/:id", fx6Def)] fx1Opts "GET /x/:id" fxNoArgs =
      (.error (.missingPathParam "id"), 0) := by
  have hkeys : referencedKeys "/x/:id" = ["id"] := by
    simp +decide [referencedKeys, refKeysAux.eq_1, refKeysAux.eq_2, refKeysAux.eq_3,
      isWordChar]
  have hbp : buildPath "/x/:id" (.obj []) = .error (.missingPathParam "id") := by
    simp +decide [buildPath, buildPathAux.eq_1, buildPathAux.eq_2, buildPathAux.eq_3,
      lookupField, isWordChar, Except.map]
  exact claim6_path_interpolation "/x/:id" (.obj []) (.obj [("zzz", .str "q")])
    (.missingPathParam "id") [("GET /x/:id", fx6Def)] fx1Opts "GET /x/:id" fxNoArgs
    fx6Def ⟨"GET", "/x/:id"⟩ (.obj []) none none none "id"
    (by
      intro nm hnm
      rw [hkeys] at hnm
      simp only [List.mem_singleton] at hnm
      subst hnm
      rfl)
    hbp rfl rfl rfl rfl rfl rfl rfl hbp

/-- Claim C7: for a flat query mapping with distinct keys, the encoded
query string is the serialization of the spec-side expansion - arrays as
repeated keys, null/undefined entries omitted, scalars stringified - and
is the empty string with no leading question mark when no entries remain
(first conjunct); the `{q: "x"}` mapping encodes exactly to "?q=x"
(second conjunct, and third for the empty mapping); and a call with that
query produces a URL ending in exactly "?q=x" (fourth conjunct). -/
theorem claim7_query_encoding
    (q : List (String × Value))
    (c : Contract) (o : ClientOptions) (k : String) (a : CallArgs)
    (defn : EndpointDef) (mp : MethodPath) (bO hO : Option Value)
    (hnd : (q.map Prod.fst).Nodup)
    (hlook : getEndpoint c k = some defn)
    (hkey : parseKey k = .ok mp)
    (hparams : defn.params = none)
    (hq : validateField defn.query a.query = .ok (some (.obj [("q", .str "x")])))
    (hb : validateField defn.body a.body = .ok bO)
    (hh : validateField defn.headers a.headers = .ok hO) :
    buildQueryString q =
      (if spSerialize (specQueryPairs q) = "" then ""
       else "?" ++ spSerialize (specQueryPairs q)) ∧
    buildQueryString [("q", .str "x")] = "?q=x" ∧
    buildQueryString [] = "" ∧
    (prepareRequest c o k a).map Prepared.url =
      .ok (joinURL (resolveBaseUrl o.baseUrl) (mp.path ++ "?q=x")) := by
  refine ⟨?_, rfl, rfl, ?_⟩
  · rw [buildQueryString, buildQueryPairs_spec q [] hnd (by simp)]
    simp
  · have hqx : buildQueryString [("q", Value.str "x")] = "?q=x" := rfl
    simp only [prepareRequest, hlook, hkey, hq, hb, hh]
    rw [hparams]
    simp only [validateField, buildPathStep, truthyOpt, queryStep, truthy,
      objEntries, Option.getD, hqx, Except.map]
    rfl

/-- Witness for C7 at a mapping exercising all three entry shapes
(array, null, scalar with a space) and at the `{q: "x"}` call. -/
theorem claim7_query_encoding_witness :
    buildQueryString [("a", .arr [.num 1, .num 2]), ("b", .null), ("c", .str "h i")] =
      (if spSerialize (specQueryPairs
          [("a", .arr [.num 1, .num 2]), ("b", .null), ("c", .str "h i")]) = ""
        then ""
        else "?" ++ spSerialize (specQueryPairs
          [("a", .arr [.num 1, .num 2]), ("b", .null), ("c", .str "h i")])) ∧
    buildQueryString [("q", .str "x")] = "?q=x" ∧
    buildQueryString [] = "" ∧
    (prepareRequest [("GET /a", fx7Def)] fx1Opts "GET /a" fx7Args).map Prepared.url =
      .ok "http://b/a?q=x" := by
  have h := claim7_query_encoding
    [("a", .arr [.num 1, .num 2]), ("b", .null), ("c", .str "h i")]
    [("GET /a", fx7Def)] fx1Opts "GET /a" fx7Args fx7Def ⟨"GET", "/a"⟩
    none none (by decide) rfl rfl rfl rfl rfl rfl
  exact h

end ContractApi
